import Mathlib

/-!
Verification development for the dinner-picker program (Go).

The program keeps a rotation state of dinners chosen this week and last
week, rolls the state over at each Sunday-midnight week boundary, and
selects five dinners (Sunday through Thursday) from five categories,
rejecting any dinner already used in the current or previous week.

Modelling conventions:
  * Machine time (`time.Time`) is modelled by `Instant`: a day number
    (`Int`, day 0 being a Sunday, matching `time.Weekday` arithmetic)
    together with a time-of-day component.  `time.Now()` becomes an
    explicit `now : Instant` argument to the functions that call it.
  * The randomness source (`math/rand`) is modelled by `Rng`, a stream
    of pre-drawn natural numbers; `rand.Intn n` consumes one element
    and reduces it modulo `n` (an exhausted stream yields 0).
  * The Go map `map[string][]Dinner` is modelled by an association
    list; a missing key yields the zero value `[]`, as in Go.
  * The result map `map[string]Dinner` built by `SelectWeeklyDinners`
    is modelled by an association list extended by appending; all keys
    inserted by the program are distinct day names.
  * The unbounded retry loop of `pickDinnerFromCategory` is modelled
    with explicit fuel; the marker `SelErr.outOfFuel` means the loop
    has not returned within the given bound (for every bound, on the
    inputs where the Go loop diverges).  The explicit panic in
    `PickRandomDinner` on an empty category is modelled by
    `SelErr.emptyCategory`.
  * The state file is modelled by an `Option Json` value threaded
    through `mainRun`; `encoding/json` marshalling of the state is
    modelled by structural encoders and decoders on a `Json` tree.
-/

/-- Dinner record: name, category and ingredient list, as in the Go
struct `Dinner`. -/
structure Dinner where
  name : String
  category : String
  ingredients : List String
deriving DecidableEq, Repr

/-- Catalog of dinners grouped by category, as in the Go struct
`DinnerData` whose field is a `map[string][]Dinner`. -/
structure DinnerData where
  dinners : List (String × List Dinner)
deriving DecidableEq, Repr

/-- Go map read `dinners.Dinners[categoryName]`: a missing key yields
the zero value, the empty slice. -/
def catGet (dd : DinnerData) (categoryName : String) : List Dinner :=
  (List.lookup categoryName dd.dinners).getD []

/-- Instant of time: `day` counts days with day 0 a Sunday (so the
weekday of a day `d` is `d % 7`, matching `int(now.Weekday())`), and
`tod` is the time elapsed since that day's midnight. -/
structure Instant where
  day : Int
  tod : Nat
deriving DecidableEq, Repr

/-- Rotation state, as in the Go struct `WeekState`. -/
structure WeekState where
  weekStart : Instant
  currentWeek : List Dinner
  previousWeek : List Dinner
deriving DecidableEq, Repr

/-- Stream of pre-drawn random numbers standing for `math/rand`'s
source. -/
abbrev Rng := List Nat

/-- Model of `rand.Intn n`: consume one stream element and reduce it
modulo `n`; an exhausted stream yields 0. -/
def randIntn (r : Rng) (n : Nat) : Nat × Rng :=
  match r with
  | [] => (0, [])
  | v :: rest => (v % n, rest)

theorem randIntn_lt (r : Rng) (n : Nat) (h : 0 < n) : (randIntn r n).1 < n := by
  cases r with
  | nil => simpa [randIntn] using h
  | cons v rest => simpa [randIntn] using Nat.mod_lt v h

/-- GetCurrentWeekStart: most recent Sunday at midnight, computed from
the given instant exactly as the Go code does (`now.AddDate(0, 0,
-int(now.Weekday()))` truncated to midnight). -/
def GetCurrentWeekStart (now : Instant) : Instant :=
  let daysFromSunday : Int := now.day % 7
  { day := now.day - daysFromSunday, tod := 0 }

/-- CheckNewWeek: if the stored week start differs from the computed
current week boundary, roll the state over; otherwise leave it
unchanged. -/
def CheckNewWeek (now : Instant) (s : WeekState) : WeekState :=
  let currentWeekStart := GetCurrentWeekStart now
  if ¬ s.weekStart = currentWeekStart then
    { s with previousWeek := s.currentWeek
             currentWeek := []
             weekStart := currentWeekStart }
  else
    s

/-- IsAlreadySelected: true when the name occurs in the current week's
or the previous week's selections. -/
def IsAlreadySelected (s : WeekState) (dinnerName : String) : Bool :=
  s.currentWeek.any (fun d => d.name == dinnerName) ||
    s.previousWeek.any (fun d => d.name == dinnerName)

/-- AddSelection: append one dinner to the current week's selections. -/
def AddSelection (s : WeekState) (dinner : Dinner) : WeekState :=
  { s with currentWeek := s.currentWeek ++ [dinner] }

/-- Errors and divergence markers of the selection functions.
`emptyCategory` models the explicit panic of `PickRandomDinner` when a
category has no entries; `outOfFuel` marks that the unbounded retry
loop of `pickDinnerFromCategory` has not returned within the fuel
bound. -/
inductive SelErr where
  | emptyCategory (categoryName : String)
  | outOfFuel
deriving DecidableEq, Repr

/-- PickRandomDinner: uniformly random member of the category's slice;
an empty or missing category triggers the explicit panic, modelled as
`SelErr.emptyCategory`. -/
def PickRandomDinner (dinners : DinnerData) (categoryName : String) (r : Rng) :
    Except SelErr (Dinner × Rng) :=
  let dinnerSlice := catGet dinners categoryName
  if h : dinnerSlice.length = 0 then
    .error (.emptyCategory categoryName)
  else
    let p := randIntn r dinnerSlice.length
    .ok (dinnerSlice.get ⟨p.1, randIntn_lt r _ (Nat.pos_of_ne_zero h)⟩, p.2)

/-- pickDinnerFromCategory: retry `PickRandomDinner` until the drawn
dinner is not already selected.  The Go loop is unbounded; the fuel
argument bounds the model, and exhausting it yields
`SelErr.outOfFuel`. -/
def pickDinnerFromCategory (dinners : DinnerData) (state : WeekState)
    (category : String) (r : Rng) : Nat → Except SelErr (Dinner × Rng)
  | 0 => .error .outOfFuel
  | fuel + 1 =>
    match PickRandomDinner dinners category r with
    | .error e => .error e
    | .ok (randomDinner, r1) =>
      if IsAlreadySelected state randomDinner.name then
        pickDinnerFromCategory dinners state category r1 fuel
      else
        .ok (randomDinner, r1)

/-- Swap of two positions in a list, the body of the closure handed to
`rand.Shuffle`. -/
def listSwap (xs : List String) (i j : Nat) : List String :=
  match xs.get? i, xs.get? j with
  | some a, some b => (xs.set i b).set j a
  | _, _ => xs

/-- Fisher–Yates pass of `rand.Shuffle`: for `i` from `n-1` down to 1,
draw `j := rand.Intn (i+1)` and swap positions `i` and `j`. -/
def shuffleAux (xs : List String) (i : Nat) (r : Rng) : List String × Rng :=
  match i with
  | 0 => (xs, r)
  | k + 1 =>
    let p := randIntn r (k + 2)
    shuffleAux (listSwap xs (k + 1) p.1) k p.2

/-- Model of `rand.Shuffle` on a list of category names. -/
def goShuffle (xs : List String) (r : Rng) : List String × Rng :=
  shuffleAux xs (xs.length - 1) r

/-- Day-to-dinner assignment built by `SelectWeeklyDinners`, the Go
`map[string]Dinner` as an association list in insertion order. -/
abbrev Selections := List (String × Dinner)

/-- Loop body of `SelectWeeklyDinners` over the shuffled categories:
`for i, day := range days` picking from `categories[i]`, recording each
pick in the state and in the result map. -/
def selectLoop (dinners : DinnerData) :
    List (String × String) → WeekState → Rng → Nat → Selections →
    Except SelErr (Selections × WeekState × Rng)
  | [], st, r, _, sel => .ok (sel, st, r)
  | (day, cat) :: rest, st, r, fuel, sel =>
    match pickDinnerFromCategory dinners st cat r fuel with
    | .error e => .error e
    | .ok (d, r1) =>
      selectLoop dinners rest (AddSelection st d) r1 fuel (sel ++ [(day, d)])

/-- SelectWeeklyDinners: Sunday is always drawn from the category
"soup"; Monday through Thursday draw from the four configured
categories after a uniform shuffle, each pick recorded immediately. -/
def SelectWeeklyDinners (dinners : DinnerData) (state : WeekState) (r : Rng)
    (fuel : Nat) : Except SelErr (Selections × WeekState × Rng) :=
  match pickDinnerFromCategory dinners state "soup" r fuel with
  | .error e => .error e
  | .ok (sundayDinner, r1) =>
    let selections : Selections := [("Sunday", sundayDinner)]
    let state1 := AddSelection state sundayDinner
    let shuffled := goShuffle ["noodles-rice", "pasta", "bread-y", "Salad"] r1
    let days := ["Monday", "Tuesday", "Wednesday", "Thursday"]
    selectLoop dinners (days.zip shuffled.1) state1 shuffled.2 fuel selections

/-- JSON value tree, the shape of the persisted state file written by
`encoding/json`. -/
inductive Json where
  | str : String → Json
  | num : Int → Json
  | arr : List Json → Json
  | obj : List (String × Json) → Json

/-- Field lookup in a JSON object, as `json.Unmarshal` matches struct
tags against object keys. -/
def jLookup (fields : List (String × Json)) (k : String) : Option Json :=
  List.lookup k fields

/-- String field of an unmarshalled object: a missing field leaves the
zero value "", a field of the wrong kind is an unmarshal error. -/
def decodeStringField (fields : List (String × Json)) (k : String) : Option String :=
  match jLookup fields k with
  | none => some ""
  | some (.str s) => some s
  | some _ => none

/-- Decoding of a JSON array of strings. -/
def decodeStrs : List Json → Option (List String)
  | [] => some []
  | .str s :: rest =>
    match decodeStrs rest with
    | some ss => some (s :: ss)
    | none => none
  | _ :: _ => none

/-- String-list field of an unmarshalled object: missing means the
zero value, the nil slice. -/
def decodeStrListField (fields : List (String × Json)) (k : String) :
    Option (List String) :=
  match jLookup fields k with
  | none => some []
  | some (.arr xs) => decodeStrs xs
  | some _ => none

/-- Marshalling of one `Dinner` under its json tags. -/
def encodeDinner (d : Dinner) : Json :=
  .obj [("name", .str d.name), ("category", .str d.category),
        ("ingredients", .arr (d.ingredients.map .str))]

/-- Unmarshalling of one `Dinner`. -/
def decodeDinner : Json → Option Dinner
  | .obj fields =>
    match decodeStringField fields "name", decodeStringField fields "category",
        decodeStrListField fields "ingredients" with
    | some n, some c, some ing => some { name := n, category := c, ingredients := ing }
    | _, _, _ => none
  | _ => none

/-- Decoding of a JSON array of dinners. -/
def decodeDinners : List Json → Option (List Dinner)
  | [] => some []
  | j :: rest =>
    match decodeDinner j, decodeDinners rest with
    | some d, some ds => some (d :: ds)
    | _, _ => none

/-- Marshalling of the week-start instant (standing for the RFC 3339
text `encoding/json` writes for a `time.Time`). -/
def encodeInstant (t : Instant) : Json :=
  .obj [("day", .num t.day), ("tod", .num (t.tod : Int))]

/-- Unmarshalling of the week-start instant. -/
def decodeInstant : Json → Option Instant
  | .obj fields =>
    match jLookup fields "day", jLookup fields "tod" with
    | some (.num d), some (.num td) =>
      if 0 ≤ td then some { day := d, tod := td.toNat } else none
    | _, _ => none
  | _ => none

/-- Dinner-list field of the state object: missing means the zero
value, the nil slice. -/
def decodeDinnerListField (fields : List (String × Json)) (k : String) :
    Option (List Dinner) :=
  match jLookup fields k with
  | none => some []
  | some (.arr xs) => decodeDinners xs
  | some _ => none

/-- Marshalling of the whole `WeekState` under its json tags, the
content `SaveState` writes to the state file. -/
def encodeState (s : WeekState) : Json :=
  .obj [("week_start", encodeInstant s.weekStart),
        ("current_week", .arr (s.currentWeek.map encodeDinner)),
        ("previous_week", .arr (s.previousWeek.map encodeDinner))]

/-- Unmarshalling of the whole `WeekState`; a missing week-start field
leaves the zero time. -/
def decodeState : Json → Option WeekState
  | .obj fields =>
    let ws :=
      match jLookup fields "week_start" with
      | none => some { day := 0, tod := 0 }
      | some j => decodeInstant j
    match ws, decodeDinnerListField fields "current_week",
        decodeDinnerListField fields "previous_week" with
    | some w, some cw, some pw =>
      some { weekStart := w, currentWeek := cw, previousWeek := pw }
    | _, _, _ => none
  | _ => none

/-- SaveState: marshal the full state; the returned JSON value is the
new content of the state file. -/
def SaveState (s : WeekState) : Json :=
  encodeState s

/-- LoadState: a missing state file yields a freshly initialised state
(empty weeks, week start at the current boundary) without touching the
file; an unparsable file is a fatal error. -/
def LoadState (now : Instant) (fs : Option Json) : Except String WeekState :=
  match fs with
  | none =>
    .ok { weekStart := GetCurrentWeekStart now
          currentWeek := []
          previousWeek := [] }
  | some file =>
    match decodeState file with
    | some state => .ok state
    | none => .error "error parsing state JSON"

/-- Run of `main` after the catalog read: `loadResult` stands for the
outcome of `LoadDinners`, `fs` for the state file's content.  Returns
the state file content after the run and the selections printed (none
when the run aborted before printing).  The state file is written only
on the all-success path, right before printing. -/
def mainRun (loadResult : Except String DinnerData) (fs : Option Json)
    (now : Instant) (r : Rng) (fuel : Nat) :
    Option Json × Option Selections :=
  match loadResult with
  | .error _ => (fs, none)
  | .ok dinners =>
    match LoadState now fs with
    | .error _ => (fs, none)
    | .ok state =>
      match SelectWeeklyDinners dinners (CheckNewWeek now state) r fuel with
      | .error _ => (fs, none)
      | .ok (selections, state2, _) => (some (SaveState state2), some selections)

theorem isAlreadySelected_false_iff (s : WeekState) (n : String) :
    IsAlreadySelected s n = false ↔
      n ∉ s.currentWeek.map Dinner.name ∧ n ∉ s.previousWeek.map Dinner.name := by
  simp [IsAlreadySelected, List.any_eq_true, List.mem_map]

theorem pickRandomDinner_ok (dinners : DinnerData) (cat : String) (r : Rng)
    (d : Dinner) (r1 : Rng)
    (h : PickRandomDinner dinners cat r = .ok (d, r1)) :
    d ∈ catGet dinners cat := by
  unfold PickRandomDinner at h
  by_cases hlen : (catGet dinners cat).length = 0
  · simp [hlen] at h
  · simp [hlen] at h
    obtain ⟨h1, _⟩ := h
    exact h1 ▸ List.get_mem _ _ _

theorem pickDinnerFromCategory_ok (dinners : DinnerData) (st : WeekState)
    (cat : String) (d : Dinner) :
    ∀ (fuel : Nat) (r r1 : Rng),
      pickDinnerFromCategory dinners st cat r fuel = .ok (d, r1) →
      IsAlreadySelected st d.name = false ∧ d ∈ catGet dinners cat := by
  intro fuel
  induction fuel with
  | zero => intro r r1 h; simp [pickDinnerFromCategory] at h
  | succ n ih =>
    intro r r1 h
    unfold pickDinnerFromCategory at h
    cases hp : PickRandomDinner dinners cat r with
    | error e => rw [hp] at h; simp at h
    | ok p =>
      obtain ⟨d0, r0⟩ := p
      rw [hp] at h
      simp at h
      by_cases hsel : IsAlreadySelected st d0.name
      · rw [if_pos hsel] at h
        exact ih r0 r1 h
      · rw [if_neg hsel] at h
        simp only [Except.ok.injEq, Prod.mk.injEq] at h
        obtain ⟨hd, hr⟩ := h
        subst hd
        exact ⟨Bool.eq_false_iff.mpr hsel, pickRandomDinner_ok dinners cat r d0 r0 hp⟩

theorem count_set (l : List String) :
    ∀ (n : Nat) (h : n < l.length) (g : String), l.get ⟨n, h⟩ = g →
      ∀ (a x : String),
        (l.set n a).count x + (if g = x then 1 else 0) =
          l.count x + (if a = x then 1 else 0) := by
  induction l with
  | nil => intro n h; exact absurd h (by simp)
  | cons y t ih =>
    intro n h g hg a x
    cases n with
    | zero =>
      simp only [List.get] at hg
      subst hg
      simp only [List.set, List.count_cons, beq_iff_eq]
      split_ifs <;> omega
    | succ m =>
      have hm : m < t.length := by simpa using h
      have hg2 : t.get ⟨m, hm⟩ = g := by simpa [List.get] using hg
      have := ih m hm g hg2 a x
      simp only [List.set, List.count_cons, beq_iff_eq]
      split_ifs at this ⊢ <;> omega

theorem listSwap_perm (xs : List String) (i j : Nat) : (listSwap xs i j).Perm xs := by
  unfold listSwap
  cases hi : xs.get? i with
  | none => exact List.Perm.refl xs
  | some a =>
    cases hj : xs.get? j with
    | none => exact List.Perm.refl xs
    | some b =>
      obtain ⟨hi1, hgi⟩ := List.get?_eq_some.mp hi
      obtain ⟨hj1, hgj⟩ := List.get?_eq_some.mp hj
      show ((xs.set i b).set j a).Perm xs
      rw [List.perm_iff_count]
      intro x
      have hj2 : j < (xs.set i b).length := by simpa using hj1
      have hgj2 : (xs.set i b).get ⟨j, hj2⟩ = b := by
        simp only [List.get_eq_getElem, List.getElem_set]
        split_ifs with hij
        · rfl
        · simpa only [List.get_eq_getElem] using hgj
      have e1 := count_set (xs.set i b) j hj2 b hgj2 a x
      have e2 := count_set xs i hi1 a hgi b x
      split_ifs at e1 e2 <;> omega

theorem shuffleAux_perm : ∀ (i : Nat) (xs : List String) (r : Rng),
    (shuffleAux xs i r).1.Perm xs := by
  intro i
  induction i with
  | zero => intro xs r; exact List.Perm.refl xs
  | succ k ih =>
    intro xs r
    unfold shuffleAux
    exact (ih _ _).trans (listSwap_perm xs (k + 1) _)

theorem goShuffle_perm (xs : List String) (r : Rng) : (goShuffle xs r).1.Perm xs :=
  shuffleAux_perm (xs.length - 1) xs r

theorem isAlreadySelected_addSelection (st : WeekState) (d : Dinner) (n : String)
    (h : IsAlreadySelected (AddSelection st d) n = false) :
    IsAlreadySelected st n = false ∧ n ≠ d.name := by
  rw [isAlreadySelected_false_iff] at h
  simp only [AddSelection, List.map_append, List.map_cons, List.map_nil,
    List.mem_append, List.mem_cons, List.mem_singleton] at h
  rw [isAlreadySelected_false_iff]
  obtain ⟨h1, h2⟩ := h
  constructor
  · exact ⟨fun hc => h1 (Or.inl hc), h2⟩
  · intro he
    exact h1 (Or.inr (by simpa using he))

theorem selectLoop_ok (dinners : DinnerData) :
    ∀ (pairs : List (String × String)) (st : WeekState) (r : Rng) (fuel : Nat)
      (sel sel2 : Selections) (st2 : WeekState) (r2 : Rng),
      selectLoop dinners pairs st r fuel sel = .ok (sel2, st2, r2) →
      ∃ ds : List Dinner,
        sel2 = sel ++ (pairs.map Prod.fst).zip ds ∧
        List.Forall₂ (fun p d => d ∈ catGet dinners p.2) pairs ds ∧
        st2 = { st with currentWeek := st.currentWeek ++ ds } ∧
        (ds.map Dinner.name).Nodup ∧
        (∀ d ∈ ds, IsAlreadySelected st d.name = false) := by
  intro pairs
  induction pairs with
  | nil =>
    intro st r fuel sel sel2 st2 r2 h
    simp only [selectLoop, Except.ok.injEq, Prod.mk.injEq] at h
    obtain ⟨h1, h2, _⟩ := h
    refine ⟨[], by simp [h1.symm], List.Forall₂.nil, ?_, by simp, by simp⟩
    simp [h2.symm]
  | cons pr rest ih =>
    obtain ⟨day, cat⟩ := pr
    intro st r fuel sel sel2 st2 r2 h
    unfold selectLoop at h
    cases hp : pickDinnerFromCategory dinners st cat r fuel with
    | error e => rw [hp] at h; simp at h
    | ok q =>
      obtain ⟨d, r1⟩ := q
      rw [hp] at h
      simp only at h
      obtain ⟨hsel0, hmem⟩ := pickDinnerFromCategory_ok dinners st cat d fuel r r1 hp
      obtain ⟨ds2, hsel2, hfa2, hst2, hnd2, hfr2⟩ :=
        ih (AddSelection st d) r1 fuel (sel ++ [(day, d)]) sel2 st2 r2 h
      refine ⟨d :: ds2, ?_, List.Forall₂.cons hmem hfa2, ?_, ?_, ?_⟩
      · simp only [List.map_cons, List.zip_cons_cons, hsel2]
        simp
      · rw [hst2]
        simp [AddSelection]
      · simp only [List.map_cons, List.nodup_cons]
        constructor
        · intro hc
          obtain ⟨d2, hd2, he⟩ := List.mem_map.mp hc
          exact (isAlreadySelected_addSelection st d d2.name (hfr2 d2 hd2)).2 he
        · exact hnd2
      · intro d2 hd2
        cases hd2 with
        | head => exact hsel0
        | tail _ hd2 =>
          exact (isAlreadySelected_addSelection st d d2.name (hfr2 d2 hd2)).1

/-- C1: for every catalog and every starting state, no two dinners
produced by `SelectWeeklyDinners` in one run share the same name, and
no produced dinner's name appears in the state's previous-week list as
it was at the start of the run. -/
theorem C1_no_repeat (dinners : DinnerData) (state : WeekState) (r : Rng)
    (fuel : Nat) (sel2 : Selections) (st2 : WeekState) (r2 : Rng)
    (h : SelectWeeklyDinners dinners state r fuel = .ok (sel2, st2, r2)) :
    (sel2.map (fun p => p.2.name)).Nodup ∧
      ∀ p ∈ sel2, ∀ q ∈ state.previousWeek, p.2.name ≠ q.name := by
  unfold SelectWeeklyDinners at h
  cases hp : pickDinnerFromCategory dinners state "soup" r fuel with
  | error e => rw [hp] at h; simp at h
  | ok q =>
    obtain ⟨sd, r1⟩ := q
    rw [hp] at h
    simp only at h
    obtain ⟨hsel0, hmem0⟩ := pickDinnerFromCategory_ok dinners state "soup" sd fuel r r1 hp
    obtain ⟨ds, hsel2, hfa, hst2, hnd, hfr⟩ := selectLoop_ok dinners _ _ _ _ _ _ _ _ h
    have hperm := goShuffle_perm ["noodles-rice", "pasta", "bread-y", "Salad"] r1
    have hcatlen : (goShuffle ["noodles-rice", "pasta", "bread-y", "Salad"] r1).1.length = 4 :=
      hperm.length_eq
    have hpairs :
        ((["Monday", "Tuesday", "Wednesday", "Thursday"].zip
          (goShuffle ["noodles-rice", "pasta", "bread-y", "Salad"] r1).1).map Prod.fst) =
          ["Monday", "Tuesday", "Wednesday", "Thursday"] :=
      List.map_fst_zip _ _ (by simp [hcatlen])
    have hdslen : ds.length = 4 := by
      have := hfa.length_eq
      simp [List.length_zip, hcatlen] at this
      omega
    have hzip_snd :
        (["Monday", "Tuesday", "Wednesday", "Thursday"].zip ds).map Prod.snd = ds :=
      List.map_snd_zip _ _ (by simp [hdslen])
    rw [hpairs] at hsel2
    subst hsel2
    constructor
    · simp only [List.map_append, List.map_cons, List.map_nil, List.singleton_append,
        List.nodup_cons]
      constructor
      · intro hc
        have : sd.name ∈ ds.map Dinner.name := by
          have hm : (["Monday", "Tuesday", "Wednesday", "Thursday"].zip ds).map
              (fun p => p.2.name) = ds.map Dinner.name := by
            rw [show (fun p : String × Dinner => p.2.name) =
                (Dinner.name ∘ Prod.snd) from rfl, ← List.map_map, hzip_snd]
          rw [hm] at hc
          exact hc
        obtain ⟨d2, hd2, he⟩ := List.mem_map.mp this
        exact (isAlreadySelected_addSelection state sd d2.name (hfr d2 hd2)).2 he
      · have hm : (["Monday", "Tuesday", "Wednesday", "Thursday"].zip ds).map
            (fun p => p.2.name) = ds.map Dinner.name := by
          rw [show (fun p : String × Dinner => p.2.name) =
              (Dinner.name ∘ Prod.snd) from rfl, ← List.map_map, hzip_snd]
        rw [hm]
        exact hnd
    · intro p hp2 q hq
      rcases List.mem_append.mp hp2 with hhd | htl
      · have : p = ("Sunday", sd) := by simpa using hhd
        subst this
        have := (isAlreadySelected_false_iff state sd.name).mp hsel0
        intro he
        exact this.2 (List.mem_map.mpr ⟨q, hq, he.symm⟩)
      · have hp3 : p.2 ∈ ds := by
          have := List.of_mem_zip (show (p.1, p.2) ∈ _ from htl)
          exact this.2
        have hfree := (isAlreadySelected_addSelection state sd p.2.name (hfr p.2 hp3)).1
        have := (isAlreadySelected_false_iff state p.2.name).mp hfree
        intro he
        exact this.2 (List.mem_map.mpr ⟨q, hq, he.symm⟩)

/-- Single soup dinner used in the exhaustion scenario. -/
def soupDinner : Dinner :=
  { name := "Tomato Soup", category := "soup", ingredients := [] }

/-- Catalog whose only category "soup" holds exactly `soupDinner`. -/
def exhaustedCatalog : DinnerData :=
  { dinners := [("soup", [soupDinner])] }

/-- State in which `soupDinner` was already used last week, so every
dinner of category "soup" is already marked used. -/
def exhaustedState : WeekState :=
  { weekStart := { day := 0, tod := 0 }, currentWeek := [], previousWeek := [soupDinner] }

theorem pickRandomDinner_of_nonempty (dinners : DinnerData) (cat : String) (r : Rng)
    (h : (catGet dinners cat).length ≠ 0) :
    ∃ d r1, PickRandomDinner dinners cat r = .ok (d, r1) := by
  unfold PickRandomDinner
  rw [dif_neg h]
  exact ⟨_, _, rfl⟩

/-- C2: on a category all of whose dinners are already marked used, the
retry loop of `pickDinnerFromCategory` never returns: for every fuel
bound it is still running (the Go loop diverges), so the code does not
fail with any explicit no-unused-dinner error. -/
theorem C2_exhausted_category_diverges :
    (∀ d ∈ catGet exhaustedCatalog "soup",
      IsAlreadySelected exhaustedState d.name = true) ∧
    ∀ (fuel : Nat) (r : Rng),
      pickDinnerFromCategory exhaustedCatalog exhaustedState "soup" r fuel =
        .error .outOfFuel := by
  refine ⟨by decide, ?_⟩
  intro fuel
  induction fuel with
  | zero => intro r; rfl
  | succ n ih =>
    intro r
    obtain ⟨d, r1, hp⟩ := pickRandomDinner_of_nonempty exhaustedCatalog "soup" r (by decide)
    have hd : d = soupDinner := by
      have := pickRandomDinner_ok exhaustedCatalog "soup" r d r1 hp
      have hcat : catGet exhaustedCatalog "soup" = [soupDinner] := by decide
      rw [hcat] at this
      exact List.mem_singleton.mp this
    subst hd
    unfold pickDinnerFromCategory
    rw [hp]
    simp only
    rw [if_pos (by decide : IsAlreadySelected exhaustedState soupDinner.name = true)]
    exact ih r1

/-- C3: when `SelectWeeklyDinners` succeeds, it returns exactly five
assignments keyed Sunday through Thursday in insertion order, the
Sunday dinner is drawn from the fixed category "soup", and the four
remaining days are assigned a permutation of the four configured
categories, so the five picks come from five distinct categories. -/
theorem C3_five_distinct_categories (dinners : DinnerData) (state : WeekState)
    (r : Rng) (fuel : Nat) (sel2 : Selections) (st2 : WeekState) (r2 : Rng)
    (h : SelectWeeklyDinners dinners state r fuel = .ok (sel2, st2, r2)) :
    ∃ (sundayDinner : Dinner) (cats : List String) (ds : List Dinner),
      sel2 = ("Sunday", sundayDinner) ::
        (["Monday", "Tuesday", "Wednesday", "Thursday"].zip ds) ∧
      sel2.map Prod.fst = ["Sunday", "Monday", "Tuesday", "Wednesday", "Thursday"] ∧
      sundayDinner ∈ catGet dinners "soup" ∧
      cats.Perm ["noodles-rice", "pasta", "bread-y", "Salad"] ∧
      List.Forall₂ (fun c d => d ∈ catGet dinners c) cats ds ∧
      ("soup" :: cats).Nodup := by
  unfold SelectWeeklyDinners at h
  cases hp : pickDinnerFromCategory dinners state "soup" r fuel with
  | error e => rw [hp] at h; simp at h
  | ok q =>
    obtain ⟨sd, r1⟩ := q
    rw [hp] at h
    simp only at h
    obtain ⟨hsel0, hmem0⟩ := pickDinnerFromCategory_ok dinners state "soup" sd fuel r r1 hp
    obtain ⟨ds, hsel2, hfa, hst2, hnd, hfr⟩ := selectLoop_ok dinners _ _ _ _ _ _ _ _ h
    have hperm := goShuffle_perm ["noodles-rice", "pasta", "bread-y", "Salad"] r1
    have hcatlen : (goShuffle ["noodles-rice", "pasta", "bread-y", "Salad"] r1).1.length = 4 :=
      hperm.length_eq
    have hpairs :
        ((["Monday", "Tuesday", "Wednesday", "Thursday"].zip
          (goShuffle ["noodles-rice", "pasta", "bread-y", "Salad"] r1).1).map Prod.fst) =
          ["Monday", "Tuesday", "Wednesday", "Thursday"] :=
      List.map_fst_zip _ _ (by simp [hcatlen])
    have hdslen : ds.length = 4 := by
      have := hfa.length_eq
      simp [List.length_zip, hcatlen] at this
      omega
    rw [hpairs] at hsel2
    refine ⟨sd, (goShuffle ["noodles-rice", "pasta", "bread-y", "Salad"] r1).1, ds,
      by simpa using hsel2, ?_, hmem0, hperm, ?_, ?_⟩
    · subst hsel2
      simp only [List.map_append, List.map_cons, List.map_nil, List.singleton_append]
      rw [List.map_fst_zip _ _ (by simp [hdslen])]
    · have hsnd :
          ((["Monday", "Tuesday", "Wednesday", "Thursday"].zip
            (goShuffle ["noodles-rice", "pasta", "bread-y", "Salad"] r1).1).map Prod.snd) =
            (goShuffle ["noodles-rice", "pasta", "bread-y", "Salad"] r1).1 :=
        List.map_snd_zip _ _ (by simp [hcatlen])
      have := (List.forall₂_map_left_iff
        (R := fun c (d : Dinner) => d ∈ catGet dinners c) (f := Prod.snd)).mpr hfa
      rw [hsnd] at this
      exact this
    · rw [List.nodup_cons]
      constructor
      · intro hc
        have : "soup" ∈ ["noodles-rice", "pasta", "bread-y", "Salad"] :=
          hperm.mem_iff.mp hc
        simp at this
      · exact hperm.symm.nodup (by decide)

/-- C4: a category with zero entries or absent from the catalog makes
`PickRandomDinner` fail with the explicit empty-category error (the
checked panic), not an out-of-range index. -/
theorem C4_empty_category (dinners : DinnerData) (cat : String) (r : Rng)
    (h : List.lookup cat dinners.dinners = none ∨
      List.lookup cat dinners.dinners = some []) :
    PickRandomDinner dinners cat r = .error (.emptyCategory cat) := by
  have hcat : catGet dinners cat = [] := by
    cases h with
    | inl h0 => simp [catGet, h0]
    | inr h0 => simp [catGet, h0]
  simp [PickRandomDinner, hcat]

/-- C5: `CheckNewWeek` rolls the state over exactly once when the
stored week start differs from the computed boundary, and leaves the
state unchanged when they are equal. -/
theorem C5_rollover (now : Instant) (s : WeekState) :
    (s.weekStart ≠ GetCurrentWeekStart now →
      CheckNewWeek now s =
        { weekStart := GetCurrentWeekStart now, currentWeek := [],
          previousWeek := s.currentWeek }) ∧
    (s.weekStart = GetCurrentWeekStart now → CheckNewWeek now s = s) := by
  constructor
  · intro hne
    simp [CheckNewWeek, hne]
  · intro he
    simp [CheckNewWeek, he]

/-- C6: running `CheckNewWeek` twice at the same instant mutates the
state on at most the first call; the second call is a no-op. -/
theorem C6_idempotent (now : Instant) (s : WeekState) :
    CheckNewWeek now (CheckNewWeek now s) = CheckNewWeek now s := by
  by_cases h : s.weekStart = GetCurrentWeekStart now <;> simp [CheckNewWeek, h]

/-- Two instants lie in the same calendar week when they share the same
Sunday-started week number. -/
def sameCalendarWeek (t1 t2 : Instant) : Prop :=
  t1.day / 7 = t2.day / 7

/-- C8: `GetCurrentWeekStart` is a deterministic function of the given
instant; two instants of the same calendar week get the same week
start, and instants of adjacent weeks get week starts exactly 7 days
apart. -/
theorem C8_week_boundary (t1 t2 : Instant) :
    (t1 = t2 → GetCurrentWeekStart t1 = GetCurrentWeekStart t2) ∧
    (sameCalendarWeek t1 t2 → GetCurrentWeekStart t1 = GetCurrentWeekStart t2) ∧
    (t2.day / 7 = t1.day / 7 + 1 →
      (GetCurrentWeekStart t2).day = (GetCurrentWeekStart t1).day + 7 ∧
        (GetCurrentWeekStart t2).tod = 0 ∧ (GetCurrentWeekStart t1).tod = 0) := by
  refine ⟨fun h => h ▸ rfl, ?_, ?_⟩
  · intro h
    unfold sameCalendarWeek at h
    unfold GetCurrentWeekStart
    have he : t1.day - t1.day % 7 = t2.day - t2.day % 7 := by omega
    simp [he]
  · intro h
    unfold GetCurrentWeekStart
    refine ⟨?_, rfl, rfl⟩
    simp only
    omega

theorem mainRun_frame (loadResult : Except String DinnerData) (fs : Option Json)
    (now : Instant) (r : Rng) (fuel : Nat)
    (h : (mainRun loadResult fs now r fuel).2 = none) :
    (mainRun loadResult fs now r fuel).1 = fs := by
  revert h
  unfold mainRun
  cases loadResult with
  | error e => intro _; rfl
  | ok dinners =>
    dsimp only
    cases hl : LoadState now fs with
    | error e => intro _; rfl
    | ok state =>
      dsimp only
      cases hs : SelectWeeklyDinners dinners (CheckNewWeek now state) r fuel with
      | error e => intro _; rfl
      | ok res =>
        obtain ⟨sel, st2, r2⟩ := res
        intro h
        simp at h

/-- C9: whenever the run fails before the selections are complete
(catalog load error, state load error, or a selection failure), the
state file is left exactly as it was: `mainRun` writes it only on the
all-success path. -/
theorem C9_no_save_on_failure (loadResult : Except String DinnerData)
    (fs : Option Json) (now : Instant) (r : Rng) (fuel : Nat)
    (h : (mainRun loadResult fs now r fuel).2 = none) :
    (mainRun loadResult fs now r fuel).1 = fs :=
  mainRun_frame loadResult fs now r fuel h

theorem decodeStrs_encode (l : List String) : decodeStrs (l.map .str) = some l := by
  induction l with
  | nil => rfl
  | cons s t ih => simp [decodeStrs, ih]

theorem decodeDinner_encode (d : Dinner) : decodeDinner (encodeDinner d) = some d := by
  unfold decodeDinner encodeDinner
  simp [decodeStringField, decodeStrListField, jLookup, List.lookup, decodeStrs_encode]

theorem decodeDinners_encode (l : List Dinner) :
    decodeDinners (l.map encodeDinner) = some l := by
  induction l with
  | nil => rfl
  | cons d t ih => simp [decodeDinners, decodeDinner_encode, ih]

theorem decodeInstant_encode (t : Instant) : decodeInstant (encodeInstant t) = some t := by
  unfold decodeInstant encodeInstant
  simp [jLookup, List.lookup]

theorem decodeState_encode (s : WeekState) : decodeState (encodeState s) = some s := by
  unfold decodeState encodeState
  simp [jLookup, List.lookup, decodeInstant_encode, decodeDinnerListField,
    decodeDinners_encode]

/-- C7: saving any state and loading it back yields a state equal to
the original in all three fields. -/
theorem C7_round_trip (now : Instant) (s : WeekState) :
    LoadState now (some (SaveState s)) = .ok s := by
  simp [LoadState, SaveState, decodeState_encode]

/-- C10: with no persisted state file, `LoadState` returns a freshly
initialised state (current boundary, empty weeks) and does not create
the file; a run that then fails before saving still ends with no state
file. -/
theorem C10_fresh_no_write (now : Instant) (loadResult : Except String DinnerData)
    (r : Rng) (fuel : Nat) :
    LoadState now none =
      .ok { weekStart := GetCurrentWeekStart now, currentWeek := [],
            previousWeek := [] } ∧
    ((mainRun loadResult none now r fuel).2 = none →
      (mainRun loadResult none now r fuel).1 = none) :=
  ⟨rfl, fun h => mainRun_frame loadResult none now r fuel h⟩

/-- Concrete catalog with one dinner per configured category. -/
def wCatalog : DinnerData :=
  { dinners :=
    [("soup", [{ name := "Tomato Soup", category := "soup", ingredients := ["tomato"] }]),
     ("noodles-rice", [{ name := "Fried Rice", category := "noodles-rice", ingredients := [] }]),
     ("pasta", [{ name := "Carbonara", category := "pasta", ingredients := [] }]),
     ("bread-y", [{ name := "Sandwiches", category := "bread-y", ingredients := [] }]),
     ("Salad", [{ name := "Caesar Salad", category := "Salad", ingredients := [] }])] }

/-- Fresh state with no selections recorded. -/
def wFresh : WeekState :=
  { weekStart := { day := 0, tod := 0 }, currentWeek := [], previousWeek := [] }

/-- Selections produced on the concrete run used by the witnesses. -/
def wSel : Selections :=
  [("Sunday", { name := "Tomato Soup", category := "soup", ingredients := ["tomato"] }),
   ("Monday", { name := "Carbonara", category := "pasta", ingredients := [] }),
   ("Tuesday", { name := "Sandwiches", category := "bread-y", ingredients := [] }),
   ("Wednesday", { name := "Caesar Salad", category := "Salad", ingredients := [] }),
   ("Thursday", { name := "Fried Rice", category := "noodles-rice", ingredients := [] })]

/-- Final state of the concrete run used by the witnesses. -/
def wSt2 : WeekState :=
  { weekStart := { day := 0, tod := 0 },
    currentWeek :=
      [{ name := "Tomato Soup", category := "soup", ingredients := ["tomato"] },
       { name := "Carbonara", category := "pasta", ingredients := [] },
       { name := "Sandwiches", category := "bread-y", ingredients := [] },
       { name := "Caesar Salad", category := "Salad", ingredients := [] },
       { name := "Fried Rice", category := "noodles-rice", ingredients := [] }],
    previousWeek := [] }

theorem C1_witness :
    SelectWeeklyDinners wCatalog wFresh [] 1 = .ok (wSel, wSt2, []) ∧
    ((wSel.map (fun p => p.2.name)).Nodup ∧
      ∀ p ∈ wSel, ∀ q ∈ wFresh.previousWeek, p.2.name ≠ q.name) :=
  ⟨rfl, C1_no_repeat wCatalog wFresh [] 1 wSel wSt2 [] rfl⟩

theorem C3_witness :
    SelectWeeklyDinners wCatalog wFresh [] 1 = .ok (wSel, wSt2, []) ∧
    (∃ (sundayDinner : Dinner) (cats : List String) (ds : List Dinner),
      wSel = ("Sunday", sundayDinner) ::
        (["Monday", "Tuesday", "Wednesday", "Thursday"].zip ds) ∧
      wSel.map Prod.fst = ["Sunday", "Monday", "Tuesday", "Wednesday", "Thursday"] ∧
      sundayDinner ∈ catGet wCatalog "soup" ∧
      cats.Perm ["noodles-rice", "pasta", "bread-y", "Salad"] ∧
      List.Forall₂ (fun c d => d ∈ catGet wCatalog c) cats ds ∧
      ("soup" :: cats).Nodup) :=
  ⟨rfl, C3_five_distinct_categories wCatalog wFresh [] 1 wSel wSt2 [] rfl⟩

/-- Catalog with no categories at all. -/
def emptyCatalog : DinnerData := { dinners := [] }

theorem C4_witness :
    (List.lookup "soup" emptyCatalog.dinners = none ∨
      List.lookup "soup" emptyCatalog.dinners = some []) ∧
    PickRandomDinner emptyCatalog "soup" [] = .error (.emptyCategory "soup") :=
  ⟨Or.inl rfl, C4_empty_category emptyCatalog "soup" [] (Or.inl rfl)⟩

/-- Instant on the Monday of the second week of the model's calendar. -/
def wNow : Instant := { day := 8, tod := 3600 }

/-- Stale state whose recorded week start is one week old. -/
def wStateOld : WeekState :=
  { weekStart := { day := 0, tod := 0 }, currentWeek := [soupDinner], previousWeek := [] }

/-- State whose recorded week start is already current at `wNow`. -/
def wStateCur : WeekState :=
  { weekStart := { day := 7, tod := 0 }, currentWeek := [], previousWeek := [soupDinner] }

theorem C5_witness :
    (wStateOld.weekStart ≠ GetCurrentWeekStart wNow ∧
      CheckNewWeek wNow wStateOld =
        { weekStart := GetCurrentWeekStart wNow, currentWeek := [],
          previousWeek := wStateOld.currentWeek }) ∧
    (wStateCur.weekStart = GetCurrentWeekStart wNow ∧
      CheckNewWeek wNow wStateCur = wStateCur) :=
  ⟨⟨by decide, (C5_rollover wNow wStateOld).1 (by decide)⟩,
   ⟨by decide, (C5_rollover wNow wStateCur).2 (by decide)⟩⟩

theorem C8_witness :
    (sameCalendarWeek { day := 3, tod := 100 } { day := 5, tod := 0 } ∧
      GetCurrentWeekStart { day := 3, tod := 100 } =
        GetCurrentWeekStart { day := 5, tod := 0 }) ∧
    ((Instant.day { day := 8, tod := 0 }) / 7 =
        (Instant.day { day := 3, tod := 100 }) / 7 + 1 ∧
      (GetCurrentWeekStart { day := 8, tod := 0 }).day =
        (GetCurrentWeekStart { day := 3, tod := 100 }).day + 7) :=
  ⟨⟨by show (3 : Int) / 7 = (5 : Int) / 7; decide,
    (C8_week_boundary { day := 3, tod := 100 } { day := 5, tod := 0 }).2.1
      (by show (3 : Int) / 7 = (5 : Int) / 7; decide)⟩,
   ⟨by decide,
    ((C8_week_boundary { day := 3, tod := 100 } { day := 8, tod := 0 }).2.2
      (by decide)).1⟩⟩

theorem C9_witness :
    (mainRun (.error "missing catalog") (some (Json.str "prior"))
      { day := 0, tod := 0 } [] 1).2 = none ∧
    (mainRun (.error "missing catalog") (some (Json.str "prior"))
      { day := 0, tod := 0 } [] 1).1 = some (Json.str "prior") :=
  ⟨rfl, C9_no_save_on_failure (.error "missing catalog") (some (Json.str "prior"))
    { day := 0, tod := 0 } [] 1 rfl⟩

theorem C10_witness :
    LoadState { day := 8, tod := 60 } none =
      .ok { weekStart := GetCurrentWeekStart { day := 8, tod := 60 },
            currentWeek := [], previousWeek := [] } ∧
    (mainRun (.error "missing catalog") none { day := 8, tod := 60 } [] 1).1 = none :=
  ⟨(C10_fresh_no_write { day := 8, tod := 60 } (.error "missing catalog") [] 1).1,
   (C10_fresh_no_write { day := 8, tod := 60 } (.error "missing catalog") [] 1).2 rfl⟩
